import Mathlib

/-!
Verification of the search engine of `rails_api_search` (`src/rails_api_search/server.py`).

Python strings are modelled as lists of characters (`Str`); Python's substring
test `needle in hay` is `pyIn`, and `str.lower()` is `lowerS` (character-wise
ASCII lowering, which agrees with Python on the ASCII data the program uses).
The HTML parsing performed by BeautifulSoup is outside this repository: the
search routine is modelled on the list of candidate elements that
`soup.find_all(['h1','h2','h3','p','div','code'])` yields in document order,
each element carrying the three projections the loop reads from it
(`get_text(strip=True)`, the `id` attribute, and the text of the first
h1/h2/h3 heading of the nearest section/div ancestor).  Concrete HTML
fixtures used below are hand-traced to such element lists, with the trace
documented at each fixture.
-/

abbrev Str := List Char

/-- Shorthand turning a Lean string literal into the `Str` model. -/
def st (s : String) : Str := s.toList

/-- Python `str.lower()` (ASCII range, which covers all data in the program). -/
def lowerS (s : Str) : Str := s.map Char.toLower

/-- Python `needle in hay` substring containment. -/
def pyIn (n : Str) : Str → Bool
  | [] => n.isPrefixOf []
  | c :: t => n.isPrefixOf (c :: t) || pyIn n t

/-- Python `s.split(sep, 1)` for the two-character separator "::" :
`some (before, after)` at the first occurrence, `none` when "::" does not
occur.  (`"::" in name` is equivalent to `(splitSep name).isSome`.) -/
def splitSep : Str → Option (Str × Str)
  | [] => none
  | ':' :: ':' :: rest => some ([], rest)
  | c :: rest => (splitSep rest).map (fun p => (c :: p.1, p.2))

/-- `RAILS_API_SECTIONS` from server.py, as the ordered association list the
Python dict iterates over (insertion order, which dicts preserve). -/
def RAILS_API_SECTIONS : List (Str × Str) :=
  [ -- Framework Components
    (st "abstractcontroller", st "AbstractController"),
    (st "actioncable", st "ActionCable"),
    (st "actioncontroller", st "ActionController"),
    (st "actiondispatch", st "ActionDispatch"),
    (st "actionmailbox", st "ActionMailbox"),
    (st "actionmailer", st "ActionMailer"),
    (st "actiontext", st "ActionText"),
    (st "actionview", st "ActionView"),
    (st "activejob", st "ActiveJob"),
    (st "activemodel", st "ActiveModel"),
    (st "activerecord", st "ActiveRecord"),
    (st "activestorage", st "ActiveStorage"),
    (st "activesupport", st "ActiveSupport"),
    (st "arel", st "Arel"),
    (st "mail", st "Mail"),
    (st "mime", st "Mime"),
    (st "minitest", st "Minitest"),
    (st "rails", st "Rails"),
    -- Core Extensions
    (st "array", st "Array"),
    (st "benchmark", st "Benchmark"),
    (st "bigdecimal", st "BigDecimal"),
    (st "class", st "Class"),
    (st "date", st "Date"),
    (st "dateandtime", st "DateAndTime"),
    (st "datetime", st "DateTime"),
    (st "delegator", st "Delegator"),
    (st "digest", st "Digest"),
    (st "erb", st "ERB"),
    (st "enumerable", st "Enumerable"),
    (st "exception", st "Exception"),
    (st "falseclass", st "FalseClass"),
    (st "file", st "File"),
    (st "float", st "Float"),
    (st "hash", st "Hash"),
    (st "io", st "IO"),
    (st "integer", st "Integer"),
    (st "kernel", st "Kernel"),
    (st "loaderror", st "LoadError"),
    (st "method", st "Method"),
    (st "module", st "Module"),
    (st "nameerror", st "NameError"),
    (st "nilclass", st "NilClass"),
    (st "numeric", st "Numeric"),
    (st "object", st "Object"),
    (st "pathname", st "Pathname"),
    (st "process", st "Process"),
    (st "range", st "Range"),
    (st "regexp", st "Regexp"),
    (st "securerandom", st "SecureRandom"),
    (st "singleton", st "Singleton"),
    (st "string", st "String"),
    (st "symbol", st "Symbol"),
    (st "thread", st "Thread"),
    (st "time", st "Time"),
    (st "trueclass", st "TrueClass"),
    (st "uri", st "URI"),
    (st "unboundmethod", st "UnboundMethod"),
    -- Sub-sections
    (st "calculations", st "DateAndTime::Calculations"),
    (st "compatibility", st "DateAndTime::Compatibility"),
    (st "zones", st "DateAndTime::Zones"),
    (st "uuid", st "Digest::UUID"),
    (st "util", st "ERB::Util"),
    (st "concerning", st "Module::Concerning"),
    (st "backtrace", st "Thread::Backtrace") ]

/-- One candidate element produced by
`soup.find_all(['h1','h2','h3','p','div','code'])`, carrying exactly the data
the search loop reads from it.  `sectionTitle` is `headers[0].text` of the
nearest `section`/`div` ancestor ([] when there is no such ancestor or it has
no h1/h2/h3 heading), `elemId` is the element's `id` attribute ([] when the
attribute is absent or empty — both produce an empty path). -/
structure Element where
  text : Str
  elemId : Str
  sectionTitle : Str
deriving DecidableEq

/-- `SearchParams` (pydantic model).  The Python field `section` is named
`sect` here because `section` is a Lean keyword. -/
structure SearchParams where
  query : Str
  sect : Option Str := none
  limit : Int := 10
deriving DecidableEq

/-- `SearchResult` (pydantic model); field `section` is named `sect`. -/
structure SearchResult where
  title : Str
  content : Str
  path : Str
  sect : Str
  relevance : ℚ
deriving DecidableEq

/-- The dictionary returned by `search_api_docs`; field `section` is named
`sect`.  `timestamp` is `datetime.now().isoformat()`, an effectful input
passed in as the `now` argument below. -/
structure SearchResponse where
  matchList : List SearchResult
  total : Nat
  query : Str
  sect : Option Str
  timestamp : Str
deriving DecidableEq

/-- Pass 1 of section detection (server.py lines 140-147): scan the catalog in
definition order; for an entry whose display name contains "::", split it at
the first "::" and select the entry when both the parent and the child token
occur (case-insensitively) in the element text.  `lt` is the already-lowered
element text (lowering is pure, so hoisting `text.lower()` out of the loop is
behaviour-preserving). -/
def detectCompound : List (Str × Str) → Str → Option Str
  | [], _ => none
  | (secId, secName) :: rest, lt =>
    match splitSep secName with
    | some pc =>
      if pyIn (lowerS pc.1) lt && pyIn (lowerS pc.2) lt then some secId
      else detectCompound rest lt
    | none => detectCompound rest lt

/-- Pass 2 of section detection (server.py lines 150-157): scan the catalog in
definition order; for an entry whose display name does not contain "::",
select it when the identifier token or the display-name token occurs
(case-insensitively) in the element text. -/
def detectSimple : List (Str × Str) → Str → Option Str
  | [], _ => none
  | (secId, secName) :: rest, lt =>
    match splitSep secName with
    | some _ => detectSimple rest lt
    | none =>
      if pyIn (lowerS secId) lt || pyIn (lowerS secName) lt then some secId
      else detectSimple rest lt

/-- Section detection for one element's text (server.py lines 138-157, in the
`not section` case): start from "general", run pass 1; run pass 2 only when
the value is still "general" (pass 1 never yields "general", since no catalog
identifier is "general"). -/
def detectSection (text : Str) : Str :=
  let afterCompound :=
    match detectCompound RAILS_API_SECTIONS (lowerS text) with
    | some secId => secId
    | none => st "general"
  if afterCompound = st "general" then
    match detectSimple RAILS_API_SECTIONS (lowerS text) with
    | some secId => secId
    | none => st "general"
  else afterCompound

/-- `detected_section = section or "general"; if not section: <detection>`
(server.py lines 138-157).  Python truthiness: a supplied but EMPTY section
string is falsy, so detection still runs in that case. -/
def resolvedSection (sec : Option Str) (text : Str) : Str :=
  match sec with
  | some s => if s ≠ [] then s else detectSection text
  | none => detectSection text

/-- `query.lower() in text.lower()` (server.py line 129). -/
def matchesQuery (query : Str) (e : Element) : Bool :=
  pyIn (lowerS query) (lowerS e.text)

/-- Construction of one `SearchResult` (server.py lines 159-165):
`title = section_title or "Untitled Section"`, `path = "#"+id` when the id
attribute is present and non-empty, `relevance = len(query)/len(text) if text
else 0`. -/
def toResult (query : Str) (sec : Option Str) (e : Element) : SearchResult :=
  { title := if e.sectionTitle ≠ [] then e.sectionTitle else st "Untitled Section"
    content := e.text
    path := if e.elemId ≠ [] then '#' :: e.elemId else []
    sect := resolvedSection sec e.text
    relevance := if e.text ≠ [] then (query.length : ℚ) / (e.text.length : ℚ) else 0 }

/-- The collection loop of `search_api_docs` (server.py lines 127-169): scan
elements in document order, append a result for each match, and break as soon
as `len(results) >= limit` — the check runs only after an append. -/
def collectLoop (query : Str) (sec : Option Str) (limit : Int) :
    List Element → List SearchResult → List SearchResult
  | [], acc => acc
  | e :: rest, acc =>
    if matchesQuery query e then
      let acc' := acc ++ [toResult query sec e]
      if limit ≤ (acc'.length : Int) then acc'
      else collectLoop query sec limit rest acc'
    else collectLoop query sec limit rest acc

/-- The collected `results` list of `search_api_docs`, in encounter order. -/
def collectResults (query : Str) (sec : Option Str) (limit : Int)
    (elements : List Element) : List SearchResult :=
  collectLoop query sec limit elements []

/-- One insertion step of a stable descending sort by relevance: the new
element goes after every already-placed element of greater or equal
relevance.  Folding this over the collected list models Python's stable
`sorted(results, key=lambda x: x['relevance'], reverse=True)`. -/
def insertDesc (x : SearchResult) : List SearchResult → List SearchResult
  | [] => [x]
  | y :: ys => if x.relevance ≤ y.relevance then y :: insertDesc x ys else x :: y :: ys

/-- Stable descending sort by relevance (server.py line 172). -/
def sortDesc (l : List SearchResult) : List SearchResult :=
  l.foldl (fun acc x => insertDesc x acc) []

/-- `search_api_docs(content, query, section, limit)` (server.py lines
120-177), on the parsed candidate-element list of `content`.  `now` is the
`datetime.now().isoformat()` timestamp.  The `except` clause of the source
(internal-error wrapping of a parser exception) is unreachable in the model,
where extraction is total. -/
def search_api_docs (elements : List Element) (query : Str) (sec : Option Str)
    (limit : Int) (now : Str) : SearchResponse :=
  let results := collectResults query sec limit elements
  { matchList := sortDesc results
    total := results.length
    query := query
    sect := sec
    timestamp := now }

/-- The exception that actually travels in server.py's error paths.  The
source binds `McpError` to `mcp.types.JSONRPCError`, which is a pydantic
`BaseModel`, not an exception class: `McpError(code, msg)` raises `TypeError`
(pydantic models reject positional constructor arguments) before any `raise`
applies, and an `except McpError:` clause raises `TypeError` when an
exception is matched against it (catching a class that does not derive from
BaseException is not allowed).  The messages of these two TypeErrors are
supplied by pydantic and the interpreter, from outside this repository, so
they are modelled symbolically; I/O errors keep their message. -/
inductive PyExc where
  | mcpErrorInitTypeError
  | badExceptTypeError
  | ioError (msg : Str)
deriving DecidableEq

/-- The filesystem as `read_resource` observes it: `fileExists` models
`docs_path.exists()`, and `readText` models `open(...).read()`, which either
yields the file's content or fails with an I/O error message. -/
structure DocsFS where
  fileExists : Str → Bool
  readText : Str → Except Str Str

/-- `get_docs_path` (server.py lines 113-118): `docs/<section>.html`, or the
aggregate `docs/rails_api.html` when no section is given. -/
def get_docs_path (sec : Option Str) : Str :=
  match sec with
  | some s => st "docs/" ++ s ++ st ".html"
  | none => st "docs/rails_api.html"

/-- `read_resource` (server.py lines 216-237), taking the already-parsed URI
host.  Intended behaviour: a missing file raises
`McpError(INVALID_PARAMS, "Documentation not found for section: ...")`,
passed through by `except McpError: raise`.  Actual behaviour: the f-string
message is evaluated, then the `McpError` construction itself raises
`TypeError` (`mcpErrorInitTypeError`); a failing `open`/`read` raises an I/O
error; in either case the first `except McpError:` clause, evaluated with the
body's exception in flight, raises `TypeError` (`badExceptTypeError`), and
that — not the body's exception, and never any `McpError` value — is what
propagates to the caller. -/
def read_resource (fs : DocsFS) (host : Str) : Except PyExc Str :=
  let sec : Option Str := if host ≠ st "all" then some host else none
  let path := get_docs_path sec
  let body : Except PyExc Str :=
    if fs.fileExists path = false then
      .error .mcpErrorInitTypeError
    else
      match fs.readText path with
      | .ok content => .ok content
      | .error e => .error (.ioError e)
  match body with
  | .ok content => .ok content
  | .error _ => .error .badExceptTypeError

/-- `call_tool` (server.py lines 250-287).  `parse` models BeautifulSoup's
extraction of the candidate-element list from HTML content; `args` is the
outcome of `SearchParams(**arguments)` (keyword construction, which pydantic
accepts — `Except.error` when validation fails).  The URI is built as
`rails-api://{params.section or 'all'}` — an empty supplied section is falsy
and selects 'all' — and `AnyUrl` normalizes the host to lowercase.  Every
failure path attempts `raise McpError(...)` with positional arguments, which
raises `TypeError` at construction instead: an unknown tool name and
malformed parameters do so directly, and a failure inside the `try` (such as
the `TypeError` propagating out of `read_resource`) is caught by
`except Exception` — `Exception` is a genuine exception class, so this catch
works — whose handler then itself raises `TypeError` from its own `McpError`
construction.  The serialized text payload is modelled as the
`SearchResponse` itself. -/
def call_tool (fs : DocsFS) (parse : Str → List Element) (name : Str)
    (args : Except Str SearchParams) (now : Str) : Except PyExc SearchResponse :=
  if name ≠ st "search" then
    .error .mcpErrorInitTypeError
  else
    match args with
    | .error _ => .error .mcpErrorInitTypeError
    | .ok params =>
      let host := lowerS (match params.sect with
        | some s => if s ≠ [] then s else st "all"
        | none => st "all")
      match read_resource fs host with
      | .error _ => .error .mcpErrorInitTypeError
      | .ok content =>
        .ok (search_api_docs (parse content) params.query params.sect params.limit now)

/-- A filesystem with no documentation files at all. -/
def noDocsFS : DocsFS :=
  { fileExists := fun _ => false
    readText := fun _ => .error (st "unreadable") }

/-- Entry predicates and hit tests used to state the detection order (claim
C4): an entry is compound when its display name contains "::", and it hits
when both its parent and child tokens occur in the (lowered) text. -/
def hitCompound (lt : Str) (en : Str × Str) : Bool :=
  match splitSep en.2 with
  | some pc => pyIn (lowerS pc.1) lt && pyIn (lowerS pc.2) lt
  | none => false

/-- Hit test for a simple (non-compound) entry: its identifier token or its
display-name token occurs in the (lowered) text. -/
def hitSimple (lt : Str) (en : Str × Str) : Bool :=
  pyIn (lowerS en.1) lt || pyIn (lowerS en.2) lt

/-- `get_text(strip=True)` of the wrapping `div` of the multi-section fixture
of `test_search_api_docs_multiple_sections`: the stripped text segments of
all descendants concatenated with no separator. -/
def c1DivText : Str :=
  st "Rails API DocumentationAction Controller OverviewAction Controller is the C in MVCActive Record BasicsActive Record is the M in MVCAction View OverviewAction View is the V in MVC"

/-- The candidate elements of the multi-section fixture of
`test_search_api_docs_multiple_sections` (three sibling sections, each an h1
plus a paragraph ending in "MVC", wrapped in a div with a leading h1), as
`find_all(['h1','h2','h3','p','div','code'])` yields them in document order.
The wrapping `div` is itself a candidate: its concatenated text is
`c1DivText`, it has no `section`/`div` ancestor (empty title) and no id.
Each heading's nearest sectioning ancestor's first heading is itself; each
paragraph's is its section's h1. -/
def c1Elements : List Element :=
  [ ⟨c1DivText, [], []⟩,
    ⟨st "Rails API Documentation", [], st "Rails API Documentation"⟩,
    ⟨st "Action Controller Overview", [], st "Action Controller Overview"⟩,
    ⟨st "Action Controller is the C in MVC", [], st "Action Controller Overview"⟩,
    ⟨st "Active Record Basics", [], st "Active Record Basics"⟩,
    ⟨st "Active Record is the M in MVC", [], st "Active Record Basics"⟩,
    ⟨st "Action View Overview", [], st "Action View Overview"⟩,
    ⟨st "Action View is the V in MVC", [], st "Action View Overview"⟩ ]

/-! ## Helper lemmas -/

theorem isPrefixOf_length_le (n : Str) : ∀ h : Str, n.isPrefixOf h = true → n.length ≤ h.length := by
  induction n with
  | nil => intro h _; simp
  | cons c t ih =>
    intro h hp
    cases h with
    | nil => simp [List.isPrefixOf] at hp
    | cons d hs =>
      rcases Bool.and_eq_true_iff.mp hp with ⟨_, hp2⟩
      simpa using Nat.succ_le_succ (ih hs hp2)

theorem pyIn_length_le (n : Str) : ∀ h : Str, pyIn n h = true → n.length ≤ h.length := by
  intro h
  induction h with
  | nil => exact fun hp => isPrefixOf_length_le n [] hp
  | cons c t ih =>
    intro hp
    rcases Bool.or_eq_true_iff.mp hp with hp1 | hp2
    · exact isPrefixOf_length_le n (c :: t) hp1
    · exact (ih hp2).trans (by simp)

theorem insertDesc_perm (x : SearchResult) (l : List SearchResult) :
    List.Perm (insertDesc x l) (x :: l) := by
  induction l with
  | nil => simp [insertDesc]
  | cons y ys ih =>
    by_cases hle : x.relevance ≤ y.relevance
    · simp only [insertDesc, if_pos hle]
      exact (ih.cons y).trans (List.Perm.swap x y ys)
    · simp [insertDesc, hle]

theorem sortDesc_aux_perm (l : List SearchResult) :
    ∀ acc, List.Perm (l.foldl (fun a x => insertDesc x a) acc) (acc ++ l) := by
  induction l with
  | nil => intro acc; simp
  | cons x xs ih =>
    intro acc
    rw [List.foldl_cons]
    exact (ih (insertDesc x acc)).trans
      (((insertDesc_perm x acc).append_right xs).trans List.perm_middle.symm)

theorem sortDesc_perm (l : List SearchResult) : List.Perm (sortDesc l) l := by
  simpa [sortDesc] using sortDesc_aux_perm l []

theorem pairwise_insertDesc (x : SearchResult) (l : List SearchResult)
    (h : l.Pairwise fun a b => b.relevance ≤ a.relevance) :
    (insertDesc x l).Pairwise fun a b => b.relevance ≤ a.relevance := by
  induction l with
  | nil => simp [insertDesc]
  | cons y ys ih =>
    rcases List.pairwise_cons.mp h with ⟨hy, hys⟩
    by_cases hle : x.relevance ≤ y.relevance
    · simp only [insertDesc, if_pos hle]
      refine List.pairwise_cons.mpr ⟨?_, ih hys⟩
      intro z hz
      rcases List.mem_cons.mp ((insertDesc_perm x ys).mem_iff.mp hz) with rfl | hz'
      · exact hle
      · exact hy z hz'
    · simp only [insertDesc, if_neg hle]
      refine List.pairwise_cons.mpr ⟨?_, h⟩
      intro z hz
      rcases List.mem_cons.mp hz with rfl | hz'
      · exact le_of_not_le hle
      · exact (hy z hz').trans (le_of_not_le hle)

theorem sortDesc_aux_pairwise (l : List SearchResult) :
    ∀ acc, acc.Pairwise (fun a b => b.relevance ≤ a.relevance) →
      (l.foldl (fun a x => insertDesc x a) acc).Pairwise fun a b => b.relevance ≤ a.relevance := by
  induction l with
  | nil => intro acc hacc; simpa using hacc
  | cons x xs ih =>
    intro acc hacc
    exact ih (insertDesc x acc) (pairwise_insertDesc x acc hacc)

theorem sortDesc_pairwise (l : List SearchResult) :
    (sortDesc l).Pairwise fun a b => b.relevance ≤ a.relevance :=
  sortDesc_aux_pairwise l [] (by simp)

theorem filter_insertDesc (r : ℚ) (x : SearchResult) (l : List SearchResult)
    (h : l.Pairwise fun a b => b.relevance ≤ a.relevance) :
    (insertDesc x l).filter (fun m => decide (m.relevance = r)) =
      if x.relevance = r then l.filter (fun m => decide (m.relevance = r)) ++ [x]
      else l.filter (fun m => decide (m.relevance = r)) := by
  induction l with
  | nil =>
    by_cases hx : x.relevance = r <;> simp [insertDesc, List.filter_cons, hx]
  | cons y ys ih =>
    rcases List.pairwise_cons.mp h with ⟨hy, hys⟩
    by_cases hle : x.relevance ≤ y.relevance
    · simp only [insertDesc, if_pos hle, List.filter_cons, ih hys]
      by_cases hx : x.relevance = r <;> by_cases hyr : y.relevance = r <;>
        simp [hx, hyr, List.filter_cons]
    · have hlt : y.relevance < x.relevance := not_le.mp hle
      simp only [insertDesc, if_neg hle]
      by_cases hx : x.relevance = r
      · have hnil : (y :: ys).filter (fun m => decide (m.relevance = r)) = [] := by
          refine List.filter_eq_nil_iff.mpr ?_
          intro z hz
          rcases List.mem_cons.mp hz with rfl | hz'
          · simpa using (ne_of_lt (hx ▸ hlt))
          · simpa using (ne_of_lt (hx ▸ lt_of_le_of_lt (hy z hz') hlt))
        rw [List.filter_cons, hnil]
        simp [hx]
      · rw [List.filter_cons]
        simp [hx]

theorem sortDesc_aux_filter (r : ℚ) (l : List SearchResult) :
    ∀ acc, acc.Pairwise (fun a b => b.relevance ≤ a.relevance) →
      (l.foldl (fun a x => insertDesc x a) acc).filter (fun m => decide (m.relevance = r)) =
        acc.filter (fun m => decide (m.relevance = r)) ++ l.filter (fun m => decide (m.relevance = r)) := by
  induction l with
  | nil => intro acc _; simp
  | cons x xs ih =>
    intro acc hacc
    have h1 := ih (insertDesc x acc) (pairwise_insertDesc x acc hacc)
    rw [List.foldl_cons, h1, filter_insertDesc r x acc hacc, List.filter_cons]
    by_cases hx : x.relevance = r <;> simp [hx]

theorem sortDesc_filter (r : ℚ) (l : List SearchResult) :
    (sortDesc l).filter (fun m => decide (m.relevance = r)) =
      l.filter (fun m => decide (m.relevance = r)) := by
  simpa [sortDesc] using sortDesc_aux_filter r l [] (by simp)

theorem collectLoop_eq (q : Str) (sec : Option Str) (limit : Int) :
    ∀ (els : List Element) (acc : List SearchResult),
      collectLoop q sec limit els acc =
        acc ++ (((els.filter (fun e => matchesQuery q e)).take
          (max (limit - (acc.length : Int)) 1).toNat).map (toResult q sec)) := by
  intro els
  induction els with
  | nil => intro acc; simp [collectLoop]
  | cons e rest ih =>
    intro acc
    by_cases hm : matchesQuery q e = true
    · by_cases h2 : limit ≤ ((acc.length : Int) + 1)
      · have hmax : max (limit - (acc.length : Int)) 1 = 1 := max_eq_right (by omega)
        simp only [collectLoop, hm, if_true, List.length_append, List.length_cons,
          List.length_nil, List.filter_cons_of_pos hm, hmax]
        rw [if_pos (by push_cast; omega)]
        simp [List.take_succ_cons]
      · have hK : (max (limit - (acc.length : Int)) 1).toNat
            = (max (limit - ((acc.length : Int) + 1)) 1).toNat + 1 := by omega
        simp only [collectLoop, hm, if_true, List.length_append, List.length_cons,
          List.length_nil, List.filter_cons_of_pos hm]
        rw [if_neg (by push_cast; omega), ih (acc ++ [toResult q sec e])]
        simp only [List.length_append, List.length_cons, List.length_nil]
        push_cast
        rw [hK, List.take_succ_cons, List.map_cons, List.append_assoc, List.singleton_append]
    · have hm' : matchesQuery q e = false := by simpa using hm
      simp [collectLoop, hm', List.filter_cons, ih acc]

theorem collectResults_eq (q : Str) (sec : Option Str) (limit : Int) (els : List Element) :
    collectResults q sec limit els =
      (((els.filter (fun e => matchesQuery q e)).take (max limit 1).toNat).map (toResult q sec)) := by
  simpa [collectResults] using collectLoop_eq q sec limit els []

theorem mem_matchList {m : SearchResult} {els : List Element} {q : Str}
    {sec : Option Str} {limit : Int} {now : Str} :
    m ∈ (search_api_docs els q sec limit now).matchList →
    ∃ e, e ∈ els ∧ matchesQuery q e = true ∧ m = toResult q sec e := by
  intro hm
  have h1 : m ∈ collectResults q sec limit els :=
    (sortDesc_perm (collectResults q sec limit els)).mem_iff.mp hm
  rw [collectResults_eq] at h1
  rcases List.mem_map.mp h1 with ⟨e, he, rfl⟩
  rcases List.mem_filter.mp (List.mem_of_mem_take he) with ⟨hel, hpred⟩
  exact ⟨e, hel, hpred, rfl⟩

theorem detectCompound_eq_find : ∀ (cat : List (Str × Str)) (lt : Str),
    detectCompound cat lt =
      ((cat.filter (fun en => (splitSep en.2).isSome)).find? (hitCompound lt)).map Prod.fst := by
  intro cat
  induction cat with
  | nil => intro lt; rfl
  | cons en rest ih =>
    intro lt
    rcases en with ⟨secId, secName⟩
    cases hsp : splitSep secName with
    | none =>
      simp only [detectCompound, hsp, List.filter_cons]
      simp [hsp, ih lt]
    | some pc =>
      by_cases hhit : (pyIn (lowerS pc.1) lt && pyIn (lowerS pc.2) lt) = true
      · simp only [detectCompound, hsp, if_pos hhit, List.filter_cons]
        simp [hsp, hitCompound, hhit]
      · simp only [detectCompound, hsp, if_neg hhit, List.filter_cons]
        simp [hsp, hitCompound, hhit, ih lt]

theorem detectSimple_eq_find : ∀ (cat : List (Str × Str)) (lt : Str),
    detectSimple cat lt =
      ((cat.filter (fun en => (splitSep en.2).isNone)).find? (hitSimple lt)).map Prod.fst := by
  intro cat
  induction cat with
  | nil => intro lt; rfl
  | cons en rest ih =>
    intro lt
    rcases en with ⟨secId, secName⟩
    cases hsp : splitSep secName with
    | some pc =>
      simp only [detectSimple, hsp, List.filter_cons]
      simp [hsp, ih lt]
    | none =>
      by_cases hhit : (pyIn (lowerS secId) lt || pyIn (lowerS secName) lt) = true
      · simp only [detectSimple, hsp, if_pos hhit, List.filter_cons]
        simp [hsp, hitSimple, hhit]
      · simp only [detectSimple, hsp, if_neg hhit, List.filter_cons]
        simp [hsp, hitSimple, hhit, ih lt]

theorem general_not_id : ∀ en ∈ RAILS_API_SECTIONS, en.1 ≠ st "general" := by decide

/-! ## Claims -/

/-- C2 (amended): for every content, query, section and limit whatsoever,
`total == matches.length`; and `matches.length <= limit` for every POSITIVE
limit.  (As literally stated over all limits the claim fails; see the
counterexample at limit 0.) -/
theorem c2_length_le_limit_total_eq (els : List Element) (q : Str) (sec : Option Str)
    (limit : Int) (now : Str) :
    (search_api_docs els q sec limit now).total
      = (search_api_docs els q sec limit now).matchList.length ∧
    (1 ≤ limit → ((search_api_docs els q sec limit now).matchList.length : Int) ≤ limit) := by
  have hlen : (search_api_docs els q sec limit now).matchList.length
      = (collectResults q sec limit els).length :=
    (sortDesc_perm (collectResults q sec limit els)).length_eq
  constructor
  · exact hlen.symm
  · intro h
    rw [hlen, collectResults_eq, max_eq_left h]
    simp only [List.length_map, List.length_take]
    omega

/-- C5: matches are sorted by relevance in descending order, and the
subsequence of matches at any fixed relevance value equals the corresponding
subsequence of the collected results in document-encounter order (the sort is
stable). -/
theorem c5_sorted_stable (els : List Element) (q : Str) (sec : Option Str)
    (limit : Int) (now : Str) :
    (search_api_docs els q sec limit now).matchList.Pairwise
      (fun a b => b.relevance ≤ a.relevance) ∧
    ∀ r : ℚ,
      (search_api_docs els q sec limit now).matchList.filter
          (fun m => decide (m.relevance = r))
        = (collectResults q sec limit els).filter (fun m => decide (m.relevance = r)) := by
  constructor
  · exact sortDesc_pairwise (collectResults q sec limit els)
  · intro r
    exact sortDesc_filter r (collectResults q sec limit els)

/-- C8: collection is capped before sorting — for positive limit the returned
matches are exactly the first (at most `limit`) matching elements in document
order, then sorted; matching elements encountered after the cap are never
included. -/
theorem c8_cap_before_sort (els : List Element) (q : Str) (sec : Option Str)
    (limit : Int) (now : Str) (h : 1 ≤ limit) :
    (search_api_docs els q sec limit now).matchList =
      sortDesc (((els.filter (fun e => matchesQuery q e)).take limit.toNat).map
        (toResult q sec)) := by
  show sortDesc (collectResults q sec limit els) = _
  rw [collectResults_eq, max_eq_left h]

/-- C10: when limit is zero or negative and some candidate element matches,
the search still returns exactly one match — the append happens before the
length check, so the bound only holds for positive limits. -/
theorem c10_nonpositive_limit_one_match (els : List Element) (q : Str)
    (sec : Option Str) (limit : Int) (now : Str) (h0 : limit ≤ 0)
    (hex : ∃ e, e ∈ els ∧ matchesQuery q e = true) :
    (search_api_docs els q sec limit now).matchList.length = 1 ∧
    (search_api_docs els q sec limit now).total = 1 := by
  have hflt : els.filter (fun e => matchesQuery q e) ≠ [] := by
    rcases hex with ⟨e, hel, hpred⟩
    intro hnil
    have hmem : e ∈ els.filter (fun e => matchesQuery q e) :=
      List.mem_filter.mpr ⟨hel, hpred⟩
    simp [hnil] at hmem
  have hcol : (collectResults q sec limit els).length = 1 := by
    rw [collectResults_eq, max_eq_right (by omega : limit ≤ 1)]
    simp only [List.length_map, List.length_take]
    have hpos : 0 < (els.filter (fun e => matchesQuery q e)).length :=
      List.length_pos.mpr hflt
    omega
  refine ⟨?_, hcol⟩
  show (sortDesc (collectResults q sec limit els)).length = 1
  rw [(sortDesc_perm (collectResults q sec limit els)).length_eq]
  exact hcol

/-- C6 (amended): whenever the caller supplies a NON-EMPTY section argument,
no detection runs and every returned match's section field equals the
supplied value.  (A supplied empty string is falsy in Python, so detection
runs; see the counterexample.) -/
theorem c6_supplied_section (els : List Element) (q s : Str) (limit : Int)
    (now : Str) (hs : s ≠ ([] : Str)) :
    ∀ m ∈ (search_api_docs els q (some s) limit now).matchList, m.sect = s := by
  intro m hm
  rcases mem_matchList hm with ⟨e, _, _, rfl⟩
  simp [toResult, resolvedSection, hs]

/-- C7: every returned match's relevance equals `len(query)/len(text)` when
the extracted element text (the match's content) is non-empty, and 0
otherwise. -/
theorem c7_relevance_formula (els : List Element) (q : Str) (sec : Option Str)
    (limit : Int) (now : Str) :
    ∀ m ∈ (search_api_docs els q sec limit now).matchList,
      m.relevance =
        if m.content = ([] : Str) then 0
        else (q.length : ℚ) / (m.content.length : ℚ) := by
  intro m hm
  rcases mem_matchList hm with ⟨e, _, _, rfl⟩
  by_cases ht : e.text = ([] : Str)
  · simp [toResult, ht]
  · simp [toResult, ht]

/-- C9: every returned match's relevance lies in [0, 1]: a match requires the
query to be a case-insensitive substring of the element text, so
`len(query) <= len(text)`. -/
theorem c9_relevance_bounds (els : List Element) (q : Str) (sec : Option Str)
    (limit : Int) (now : Str) :
    ∀ m ∈ (search_api_docs els q sec limit now).matchList,
      0 ≤ m.relevance ∧ m.relevance ≤ 1 := by
  intro m hm
  rcases mem_matchList hm with ⟨e, _, hpred, rfl⟩
  have hlen : q.length ≤ e.text.length := by
    have h1 := pyIn_length_le (lowerS q) (lowerS e.text) hpred
    simpa [lowerS] using h1
  by_cases ht : e.text = ([] : Str)
  · simp [toResult, ht]
  · have hpos : 0 < e.text.length := List.length_pos.mpr ht
    constructor
    · show (0:ℚ) ≤ (toResult q sec e).relevance
      simp only [toResult, ne_eq, ht, not_false_eq_true, if_true]
      positivity
    · show (toResult q sec e).relevance ≤ 1
      simp only [toResult, ne_eq, ht, not_false_eq_true, if_true]
      rw [div_le_one (by exact_mod_cast hpos)]
      exact_mod_cast hlen

/-- C4: with no supplied section, detection scans compound catalog entries
(display name containing "::") in definition order first, selecting the first
whose parent and child tokens both occur in the element text; only when no
compound entry matches does it scan simple entries, selecting the first whose
identifier or display-name token occurs; a compound match therefore always
wins over any simple-entry match, and within each pass the first entry in
definition order wins. -/
theorem c4_detection_order (text : Str) :
    resolvedSection none text =
      (match (RAILS_API_SECTIONS.filter (fun en => (splitSep en.2).isSome)).find?
          (hitCompound (lowerS text)) with
       | some en => en.1
       | none =>
         match (RAILS_API_SECTIONS.filter (fun en => (splitSep en.2).isNone)).find?
             (hitSimple (lowerS text)) with
         | some en => en.1
         | none => st "general") := by
  show detectSection text = _
  unfold detectSection
  rw [detectCompound_eq_find, detectSimple_eq_find]
  cases hc : (RAILS_API_SECTIONS.filter (fun en => (splitSep en.2).isSome)).find?
      (hitCompound (lowerS text)) with
  | none =>
    cases hs : (RAILS_API_SECTIONS.filter (fun en => (splitSep en.2).isNone)).find?
        (hitSimple (lowerS text)) with
    | none => simp
    | some en => simp
  | some en =>
    have hmem : en ∈ RAILS_API_SECTIONS :=
      List.mem_of_mem_filter (List.mem_of_find?_eq_some hc)
    have hne : en.1 ≠ st "general" := general_not_id en hmem
    simp [hne]

/-- C1: on the multi-section fixture (three sibling sections whose paragraphs
read "Action Controller is the C in MVC", "Active Record is the M in MVC",
"Action View is the V in MVC", wrapped in a div), searching for "mvc" with no
section and limit 10 does NOT return 3 matches with sections
actioncontroller / activerecord / actionview: it returns 4 matches (the
wrapping div's concatenated text also contains "mvc"), whose resolved
sections are a permutation of [rails, io, general, io] — "io" because it is a
substring of "action", "rails" from the div's heading text, and "general"
because no catalog token occurs contiguously in "Active Record is the M in
MVC". -/
theorem c1_multi_section_search :
    (search_api_docs c1Elements (st "mvc") none 10 []).total = 4 ∧
    List.Perm
      ((search_api_docs c1Elements (st "mvc") none 10 []).matchList.map (fun m => m.sect))
      [st "rails", st "io", st "general", st "io"] := by
  constructor
  · decide
  · have hp := (sortDesc_perm (collectResults (st "mvc") none 10 c1Elements)).map
      (fun m => m.sect)
    have he : (collectResults (st "mvc") none 10 c1Elements).map (fun m => m.sect)
        = [st "rails", st "io", st "general", st "io"] := by decide
    rw [he] at hp
    exact hp

/-- C2 counterexample: with limit 0 and one matching element, the response
holds 1 match, violating `matches.length <= limit`. -/
theorem c2_counterexample_limit_zero :
    (search_api_docs [⟨st "hit", [], []⟩] (st "hit") none 0 []).matchList.length = 1 ∧
    ¬ (((search_api_docs [⟨st "hit", [], []⟩] (st "hit") none 0 []).matchList.length : Int) ≤ 0) := by
  constructor <;> decide

/-- C6 counterexample: supplying the EMPTY string as the section argument is
falsy in Python, so detection runs and the returned match's section is
"general", not the supplied value "". -/
theorem c6_counterexample_empty_section :
    (search_api_docs [⟨st "zzz", [], []⟩] (st "zzz") (some ([] : Str)) 10 []).matchList.map
        (fun m => m.sect) = [st "general"] ∧
    st "general" ≠ ([] : Str) := by
  constructor <;> decide

/-- C3: a search request naming an unknown or missing section does NOT fail
with the InvalidParams "Documentation not found" condition the claim (and the
spec's error taxonomy, and the code's own `except McpError: raise` intent)
describes.  Because `McpError` is bound to the pydantic `JSONRPCError`,
`read_resource` propagates a `TypeError` raised by its own
`except McpError:` clause, and `call_tool`'s `except Exception` handler then
raises a `TypeError` from its own `McpError` construction — the tool caller
sees an undifferentiated `TypeError`; neither the InvalidParams category nor
the not-found message survives.  Evaluation of the code at the failing
input (a filesystem with no documentation files, section "unknownsec"): -/
theorem c3_typeerror_surface :
    read_resource noDocsFS (st "unknownsec") = .error .badExceptTypeError ∧
    call_tool noDocsFS (fun _ => []) (st "search")
      (.ok ⟨st "q", some (st "unknownsec"), 10⟩) [] = .error .mcpErrorInitTypeError := by
  constructor <;> rfl

/-- Witness for C2 at a concrete input, discharging the positivity premise of
the length bound at limit 10. -/
theorem c2_witness :
    (1:Int) ≤ 10 ∧
    ((search_api_docs [⟨st "abc", [], []⟩] (st "b") none 10 []).total
        = (search_api_docs [⟨st "abc", [], []⟩] (st "b") none 10 []).matchList.length ∧
      ((search_api_docs [⟨st "abc", [], []⟩] (st "b") none 10 []).matchList.length : Int) ≤ 10) :=
  ⟨by norm_num,
    ⟨(c2_length_le_limit_total_eq [⟨st "abc", [], []⟩] (st "b") none 10 []).1,
      (c2_length_le_limit_total_eq [⟨st "abc", [], []⟩] (st "b") none 10 []).2 (by norm_num)⟩⟩

/-- Witness for C6 at the fixture of `test_search_api_docs_with_section`. -/
theorem c6_witness :
    st "activerecord" ≠ ([] : Str) ∧
    (toResult (st "active record") (some (st "activerecord"))
        ⟨st "Active Record is the M in MVC", [], st "ActiveRecord Basics"⟩).sect
      = st "activerecord" :=
  ⟨by decide,
    c6_supplied_section
      [⟨st "Active Record is the M in MVC", [], st "ActiveRecord Basics"⟩]
      (st "active record") (st "activerecord") 10 [] (by decide)
      (toResult (st "active record") (some (st "activerecord"))
        ⟨st "Active Record is the M in MVC", [], st "ActiveRecord Basics"⟩)
      (List.mem_cons_self _ _)⟩

/-- Witness for C7 at a concrete one-element input. -/
theorem c7_witness :
    (toResult (st "a") none ⟨st "ab", [], []⟩) ∈
      (search_api_docs [⟨st "ab", [], []⟩] (st "a") none 10 []).matchList ∧
    (toResult (st "a") none ⟨st "ab", [], []⟩).relevance =
      (if (toResult (st "a") none ⟨st "ab", [], []⟩).content = ([] : Str) then 0
       else ((st "a").length : ℚ)
         / (((toResult (st "a") none ⟨st "ab", [], []⟩).content.length : ℚ))) :=
  ⟨List.mem_cons_self _ _,
    c7_relevance_formula [⟨st "ab", [], []⟩] (st "a") none 10 [] _ (List.mem_cons_self _ _)⟩

/-- Witness for C8 at a concrete three-element input with limit 2. -/
theorem c8_witness :
    (1:Int) ≤ 2 ∧
    (search_api_docs [⟨st "a", [], []⟩, ⟨st "aa", [], []⟩, ⟨st "aaa", [], []⟩]
        (st "a") none 2 []).matchList
      = sortDesc ((([⟨st "a", [], []⟩, ⟨st "aa", [], []⟩, ⟨st "aaa", [], []⟩].filter
          (fun e => matchesQuery (st "a") e)).take (2:Int).toNat).map (toResult (st "a") none)) :=
  ⟨by norm_num,
    c8_cap_before_sort [⟨st "a", [], []⟩, ⟨st "aa", [], []⟩, ⟨st "aaa", [], []⟩]
      (st "a") none 2 [] (by norm_num)⟩

/-- Witness for C9 at a concrete one-element input. -/
theorem c9_witness :
    (toResult (st "rails") none ⟨st "Rails", [], []⟩) ∈
      (search_api_docs [⟨st "Rails", [], []⟩] (st "rails") none 10 []).matchList ∧
    (0 ≤ (toResult (st "rails") none ⟨st "Rails", [], []⟩).relevance ∧
      (toResult (st "rails") none ⟨st "Rails", [], []⟩).relevance ≤ 1) :=
  ⟨List.mem_cons_self _ _,
    c9_relevance_bounds [⟨st "Rails", [], []⟩] (st "rails") none 10 [] _
      (List.mem_cons_self _ _)⟩

/-- Witness for C10 at a concrete input with limit -3. -/
theorem c10_witness :
    ((-3:Int) ≤ 0 ∧
      (∃ e, e ∈ [⟨st "no", [], ([] : Str)⟩, ⟨st "yes", [], ([] : Str)⟩] ∧
        matchesQuery (st "yes") e = true)) ∧
    ((search_api_docs [⟨st "no", [], []⟩, ⟨st "yes", [], []⟩] (st "yes") none (-3) []).matchList.length = 1 ∧
      (search_api_docs [⟨st "no", [], []⟩, ⟨st "yes", [], []⟩] (st "yes") none (-3) []).total = 1) :=
  ⟨⟨by norm_num, ⟨⟨st "yes", [], []⟩, by decide, by decide⟩⟩,
    c10_nonpositive_limit_one_match [⟨st "no", [], []⟩, ⟨st "yes", [], []⟩]
      (st "yes") none (-3) [] (by norm_num)
      ⟨⟨st "yes", [], []⟩, by decide, by decide⟩⟩
